import Mathlib

/-!
Verification of the BLS labor-statistics fetch/merge pipeline
(`datafetch.py`) and of the dashboard's loading/export paths
(`streamlit_app.py`), via a shallow embedding in Lean.

Dates are `(year, month)` pairs (the day is always 1 in the source).
Values are rationals (the source parses decimal strings with `float`).
The external API's response is modelled by `ApiResponse`: the transport
and JSON-decoding steps of `fetch_series` happen *outside* its
`try` block in the source, so their failures are distinguished from a
failure to find the expected structure inside the decoded JSON.
-/

deriving instance DecidableEq for Except

namespace BLS

/-- A calendar month: `datetime(year, month, 1)` in the source. -/
structure Date where
  year : Nat
  month : Nat
deriving DecidableEq, Repr

/-- One raw entry of the API's `data` array: the fields the source reads
(`item["period"]`, `item["year"]`, `item["value"]`), all strings. -/
structure RawItem where
  period : String
  year : String
  value : String
deriving DecidableEq, Repr

/-- Numeric value of a list of decimal digits (most significant first). -/
def digitsVal (l : List Char) : Nat :=
  l.foldl (fun n c => 10 * n + (c.toNat - 48)) 0

/-- An optionally signed run of decimal digits (as a character list), as
accepted by Python's `int` on the strings this pipeline feeds it. -/
def parsePyIntChars (l : List Char) : Option Int :=
  let core : List Char → Option Int := fun l =>
    if l ≠ [] ∧ l.all (fun c => c.isDigit) then some (digitsVal l) else none
  match l with
  | '-' :: rest => (core rest).map (fun n => -n)
  | '+' :: rest => core rest
  | l => core l

/-- Python's `int` on a string. -/
def parsePyInt (s : String) : Option Int :=
  parsePyIntChars s.data

/-- An optionally signed decimal literal (digits with at most one point),
as accepted by Python's `float` on the numeric strings the API returns. -/
def parseValue (s : String) : Option Rat :=
  let core : List Char → Option Rat := fun l =>
    match l.span (fun c => c != '.') with
    | (a, []) =>
      if a ≠ [] ∧ a.all (fun c => c.isDigit) then some (mkRat (digitsVal a) 1) else none
    | (a, _dot :: frac) =>
      if (a ≠ [] ∨ frac ≠ []) ∧ a.all (fun c => c.isDigit) ∧
          frac.all (fun c => c.isDigit) then
        some (mkRat (digitsVal a * 10 ^ frac.length + digitsVal frac) (10 ^ frac.length))
      else none
  match s.data with
  | '-' :: rest => (core rest).map Rat.neg
  | '+' :: rest => core rest
  | l => core l

/-- One observation produced by the fetcher: `(date, value)`. -/
abbrev Obs := Date × Rat

/-- The loop body of `fetch_series` over the `data` array.  Per item:
periods not starting with `"M"` and the annual-average code `"M13"` are
skipped (`continue`); a value that fails `float` is skipped by the inner
`except ValueError: continue`; but a year or month that fails `int`, or a
month outside `datetime`'s valid range, raises — the exception is caught
by the *outer* handler, so the loop stops and the rows accumulated so far
are returned. -/
def processItems : List RawItem → List Obs
  | [] => []
  | item :: rest =>
    match item.period.data with
    | 'M' :: ptail =>
      if ptail = ['1', '3'] then processItems rest
      else
        match parsePyInt item.year, parsePyIntChars ptail with
        | some y, some m =>
          if 1 ≤ y ∧ y ≤ 9999 ∧ 1 ≤ m ∧ m ≤ 12 then
            match parseValue item.value with
            | some v => (⟨y.toNat, m.toNat⟩, v) :: processItems rest
            | none => processItems rest
          else []
        | _, _ => []
    | _ => processItems rest

/-- What the external API did for one request.  `netError` models
`requests.post` raising, `badJson` models `response.json()` raising —
both happen before the `try` block of `fetch_series` in the source.
`badStructure` models `data["Results"]["series"][0]["data"]` raising
inside the `try`.  `payload items` is a well-formed response whose
`data` array is `items`. -/
inductive ApiResponse where
  | netError
  | badJson
  | badStructure
  | payload (items : List RawItem)
deriving DecidableEq, Repr

/-- `fetch_series` as a function of the API's response.  A transport or
JSON-decode failure raises outside the `try` block and propagates to the
caller (`Except.error`); a missing structure is caught by the `except`
and yields the rows accumulated so far, which is the empty list since the
structure lookup is the first statement of the `try`. -/
def fetch_series : ApiResponse → Except Unit (List Obs)
  | .netError => .error ()
  | .badJson => .error ()
  | .badStructure => .ok []
  | .payload items => .ok (processItems items)

/-- One row of the persisted store: columns `date, series, value`. -/
structure Row where
  date : Date
  series : String
  value : Rat
deriving DecidableEq, Repr

/-- The identity key of a row: `(date, series)`. -/
def key (r : Row) : Date × String := (r.date, r.series)

/-- The `SERIES` registry of `datafetch.py`, in insertion order. -/
def SERIES : List (String × String) :=
  [("nonfarm_employment", "CES0000000001"),
   ("unemployment_rate", "LNS14000000"),
   ("labor_force_participation", "LNS11300000"),
   ("avg_hourly_earnings", "CES0500000003"),
   ("avg_weekly_hours", "CES0500000002")]

/-- The fetch loop of `update_dataset`: for each registry entry, fetch
that series and tag its observations with the registry key.  An exception
raised by `fetch_series` (transport / JSON decode) is not caught there,
so it propagates and aborts the whole loop. -/
def collectRows (api : String → ApiResponse) : List (String × String) → Except Unit (List Row)
  | [] => .ok []
  | (k, sid) :: rest =>
    match fetch_series (api sid) with
    | .error e => .error e
    | .ok obs =>
      match collectRows api rest with
      | .error e => .error e
      | .ok tail => .ok (obs.map (fun o => ⟨o.1, k, o.2⟩) ++ tail)

/-- Linear scan behind `dedupKeys`: `seen` is the set of identity keys
already emitted; a row whose key was seen is dropped, otherwise it is
kept and its key recorded. -/
def dedupKeysAux (seen : List (Date × String)) : List Row → List Row
  | [] => []
  | r :: rest =>
    if key r ∈ seen then dedupKeysAux seen rest
    else r :: dedupKeysAux (key r :: seen) rest

/-- `drop_duplicates(subset=["date", "series"])` with pandas' default
`keep="first"`: the first occurrence of each identity key is kept, in
order, and every later row with the same key is dropped. -/
def dedupKeys (l : List Row) : List Row :=
  dedupKeysAux [] l

/-- Lexicographic comparison of character lists by code point: the
string order Python (and pandas, on these keys) uses. -/
def strLeB : List Char → List Char → Bool
  | [], _ => true
  | _ :: _, [] => false
  | c :: a, d :: b =>
    if c.toNat = d.toNat then strLeB a b else decide (c.toNat < d.toNat)

/-- Code-point lexicographic order on strings. -/
def strLE (a b : String) : Prop :=
  strLeB a.data b.data = true

instance : DecidableRel strLE := fun a b => by
  unfold strLE; infer_instance

/-- The order used by `sort_values(["date", "series"])`: ascending by
date, then lexicographically by series key. -/
def rowLE (a b : Row) : Prop :=
  a.date.year < b.date.year ∨
    (a.date.year = b.date.year ∧
      (a.date.month < b.date.month ∨
        (a.date.month = b.date.month ∧ strLE a.series b.series)))

instance : DecidableRel rowLE := fun a b => by
  unfold rowLE; infer_instance

/-- `df.sort_values(["date", "series"])` on the row list. -/
def sortRows (l : List Row) : List Row :=
  List.insertionSort rowLE l

/-- The merge/dedupe/sort/write step of `update_dataset`, as a function
of the prior persisted dataset (`none` when `DATA_PATH` does not exist)
and of the freshly fetched rows.  When a prior file exists the source
concatenates old rows before new ones and drops duplicate identity keys
keeping the first (old) occurrence; without a prior file no deduplication
happens.  With no prior file and no fetched rows, `pd.DataFrame([])` has
no columns at all, so `sort_values(["date", "series"])` raises `KeyError`
and nothing is written (`Except.error`). -/
def mergeStep (prior : Option (List Row)) (fetched : List Row) : Except Unit (List Row) :=
  match prior with
  | some old => .ok (sortRows (dedupKeys (old ++ fetched)))
  | none =>
    match fetched with
    | [] => .error ()
    | _ => .ok (sortRows fetched)

/-- `update_dataset`: fetch every registered series, then merge with the
prior persisted dataset and write the result.  The returned list is the
dataset written to `DATA_PATH`; `Except.error` means the run raised
before writing. -/
def update_dataset (api : String → ApiResponse) (prior : Option (List Row)) :
    Except Unit (List Row) :=
  match collectRows api SERIES with
  | .error e => .error e
  | .ok all_rows => mergeStep prior all_rows

/-! ### The dashboard (`streamlit_app.py`) -/

/-- The `SERIES_LABELS` mapping of `streamlit_app.py`. -/
def SERIES_LABELS : List (String × String) :=
  [("nonfarm_employment", "Nonfarm Employment (Thousands)"),
   ("unemployment_rate", "Unemployment Rate (%)"),
   ("labor_force_participation", "Labor Force Participation Rate (%)"),
   ("avg_hourly_earnings", "Average Hourly Earnings ($)"),
   ("avg_weekly_hours", "Average Weekly Hours")]

/-- The order used by `sort_values("date")`: ascending by date only. -/
def dateLE (a b : Date) : Prop :=
  a.year < b.year ∨ (a.year = b.year ∧ a.month ≤ b.month)

instance : DecidableRel dateLE := fun a b => by
  unfold dateLE; infer_instance

/-- Date order lifted to rows, for `df.sort_values("date")`. -/
def rowDateLE (a b : Row) : Prop :=
  dateLE a.date b.date

instance : DecidableRel rowDateLE := fun a b => by
  unfold rowDateLE; infer_instance

/-- A loaded dashboard row: the three store columns plus the
`series_name` column added by `load_data`. -/
structure LRow where
  date : Date
  series : String
  value : Rat
  series_name : String
deriving DecidableEq, Repr

/-- `load_data` of `streamlit_app.py`, as a function of the persisted
store's contents (`none` when `DATA_PATH` does not exist, in which case
`pd.read_csv` raises `FileNotFoundError`).  On a readable store it sorts
by date and adds `series_name`, the registry label of the series key
with the raw key as fallback (`.map(SERIES_LABELS).fillna(df["series"])`). -/
def load_data : Option (List Row) → Except Unit (List LRow)
  | none => .error ()
  | some rows =>
    .ok ((List.insertionSort rowDateLE rows).map
      (fun r => ⟨r.date, r.series, r.value, (SERIES_LABELS.lookup r.series).getD r.series⟩))

/-- The column renaming applied to the pivoted frame in the download
expander of `streamlit_app.py`. -/
def RENAME_MAP : List (String × String) :=
  [("date", "Date"),
   ("avg_hourly_earnings", "Average Hourly Earnings ($)"),
   ("avg_weekly_hours", "Average Weekly Hours"),
   ("labor_force_participation", "Labor Force Participation Rate (%)"),
   ("nonfarm_employment", "Nonfarm Employment (Thousands)"),
   ("unemployment_rate", "Unemployment Rate (%)")]

/-- The exact column list the export keeps, in order. -/
def WANTED : List String :=
  ["Date",
   "Average Hourly Earnings ($)",
   "Average Weekly Hours",
   "Labor Force Participation Rate (%)",
   "Nonfarm Employment (Thousands)",
   "Unemployment Rate (%)"]

/-- The series keys matching `WANTED.drop 1`, in the same order. -/
def KEY_ORDER : List String :=
  ["avg_hourly_earnings",
   "avg_weekly_hours",
   "labor_force_participation",
   "nonfarm_employment",
   "unemployment_rate"]

/-- `wide.rename(columns=...)` applied to one column name. -/
def renameCol (c : String) : String :=
  (RENAME_MAP.lookup c).getD c

/-- The column set of `df.pivot(index="date", columns="series", ...)`:
one column per distinct series key, sorted (pandas sorts the columns). -/
def pivotColumns (df : List Row) : List String :=
  List.insertionSort strLE (df.map (fun r => r.series)).dedup

/-- The columns after `reset_index()`: the date index becomes a leading
`date` column. -/
def wideColumns (df : List Row) : List String :=
  "date" :: pivotColumns df

/-- The row index of the pivoted frame: one row per distinct date,
sorted ascending (pandas sorts the index; `sort_values("date")` follows). -/
def pivotDates (df : List Row) : List Date :=
  List.insertionSort dateLE (df.map (fun r => r.date)).dedup

/-- The cell of the pivoted frame at `(d, k)`: the value of the row with
that identity key, or `NaN` (here `none`) when no such row exists. -/
def lookupVal (df : List Row) (d : Date) (k : String) : Option Rat :=
  (df.find? (fun r => decide (r.date = d ∧ r.series = k))).map (fun r => r.value)

/-- The wide-form export of the download expander: pivot long rows to
one row per date, rename the columns, and keep exactly the six `WANTED`
columns.  `df.pivot` raises `ValueError` when two rows share an identity
key; the column selection `wide[[...]]` raises `KeyError` when a wanted
column is absent after renaming. -/
def wide (df : List Row) : Except Unit (List (Date × List (Option Rat))) :=
  if (df.map key).Nodup then
    if WANTED.all (fun c => decide (c ∈ (wideColumns df).map renameCol)) then
      .ok ((pivotDates df).map (fun d => (d, KEY_ORDER.map (fun k => lookupVal df d k))))
    else .error ()
  else .error ()

/-! ### Order lemmas -/

theorem strLeB_cons (c d : Char) (a b : List Char) :
    strLeB (c :: a) (d :: b) =
      if c.toNat = d.toNat then strLeB a b else decide (c.toNat < d.toNat) := rfl

theorem strLeB_total : ∀ a b : List Char, strLeB a b = true ∨ strLeB b a = true
  | [], _ => Or.inl rfl
  | _ :: _, [] => Or.inr rfl
  | c :: a, d :: b => by
    rw [strLeB_cons, strLeB_cons]
    by_cases h : c.toNat = d.toNat
    · rw [if_pos h, if_pos h.symm]
      exact strLeB_total a b
    · rw [if_neg h, if_neg (fun h2 => h h2.symm)]
      rcases Nat.lt_or_ge c.toNat d.toNat with hlt | hge
      · exact Or.inl (by simpa using hlt)
      · exact Or.inr (by simp; omega)

theorem strLeB_trans : ∀ a b c : List Char,
    strLeB a b = true → strLeB b c = true → strLeB a c = true
  | [], _, _, _, _ => rfl
  | x :: a, [], _, h, _ => by simp [strLeB] at h
  | x :: a, y :: b, [], _, h2 => by simp [strLeB] at h2
  | x :: a, y :: b, z :: c, h1, h2 => by
    rw [strLeB_cons] at h1 h2 ⊢
    by_cases hxy : x.toNat = y.toNat <;> by_cases hyz : y.toNat = z.toNat
    · rw [if_pos hxy] at h1
      rw [if_pos hyz] at h2
      rw [if_pos (hxy.trans hyz)]
      exact strLeB_trans a b c h1 h2
    · rw [if_neg hyz] at h2
      simp only [decide_eq_true_eq] at h2
      rw [if_neg (by omega), decide_eq_true_eq]
      omega
    · rw [if_neg hxy] at h1
      simp only [decide_eq_true_eq] at h1
      rw [if_neg (by omega), decide_eq_true_eq]
      omega
    · rw [if_neg hxy] at h1
      rw [if_neg hyz] at h2
      simp only [decide_eq_true_eq] at h1 h2
      rw [if_neg (by omega), decide_eq_true_eq]
      omega

theorem rowLE_total (a b : Row) : rowLE a b ∨ rowLE b a := by
  unfold rowLE strLE
  rcases Nat.lt_trichotomy a.date.year b.date.year with h | h | h
  · exact Or.inl (Or.inl h)
  · rcases Nat.lt_trichotomy a.date.month b.date.month with h2 | h2 | h2
    · exact Or.inl (Or.inr ⟨h, Or.inl h2⟩)
    · rcases strLeB_total a.series.data b.series.data with h3 | h3
      · exact Or.inl (Or.inr ⟨h, Or.inr ⟨h2, h3⟩⟩)
      · exact Or.inr (Or.inr ⟨h.symm, Or.inr ⟨h2.symm, h3⟩⟩)
    · exact Or.inr (Or.inr ⟨h.symm, Or.inl h2⟩)
  · exact Or.inr (Or.inl h)

theorem rowLE_trans (a b c : Row) : rowLE a b → rowLE b c → rowLE a c := by
  unfold rowLE strLE
  intro h1 h2
  rcases h1 with h1 | ⟨e1, h1⟩ <;> rcases h2 with h2 | ⟨e2, h2⟩
  · exact Or.inl (h1.trans h2)
  · exact Or.inl (by omega)
  · exact Or.inl (by omega)
  · refine Or.inr ⟨e1.trans e2, ?_⟩
    rcases h1 with h1 | ⟨m1, s1⟩ <;> rcases h2 with h2 | ⟨m2, s2⟩
    · exact Or.inl (h1.trans h2)
    · exact Or.inl (by omega)
    · exact Or.inl (by omega)
    · exact Or.inr ⟨m1.trans m2, strLeB_trans _ _ _ s1 s2⟩

instance : IsTotal Row rowLE := ⟨rowLE_total⟩

instance : IsTrans Row rowLE := ⟨rowLE_trans⟩

/-! ### Deduplication lemmas -/

theorem mem_of_mem_dedupKeysAux (x : Row) :
    ∀ (l : List Row) (seen : List (Date × String)), x ∈ dedupKeysAux seen l → x ∈ l := by
  intro l
  induction l with
  | nil => intro seen h; simp [dedupKeysAux] at h
  | cons r rest ih =>
    intro seen h
    simp only [dedupKeysAux] at h
    by_cases hm : key r ∈ seen
    · rw [if_pos hm] at h
      exact List.mem_cons_of_mem _ (ih _ h)
    · rw [if_neg hm] at h
      rcases List.mem_cons.mp h with h | h
      · exact h ▸ List.mem_cons_self _ _
      · exact List.mem_cons_of_mem _ (ih _ h)

theorem dedupKeysAux_nodup :
    ∀ (l : List Row) (seen : List (Date × String)),
      ((dedupKeysAux seen l).map key).Nodup ∧
        ∀ a ∈ (dedupKeysAux seen l).map key, a ∉ seen := by
  intro l
  induction l with
  | nil => intro seen; simp [dedupKeysAux]
  | cons r rest ih =>
    intro seen
    simp only [dedupKeysAux]
    by_cases hm : key r ∈ seen
    · rw [if_pos hm]
      exact ih seen
    · rw [if_neg hm]
      obtain ⟨h1, h2⟩ := ih (key r :: seen)
      refine ⟨?_, ?_⟩
      · simp only [List.map_cons, List.nodup_cons]
        exact ⟨fun hc => (h2 _ hc) (List.mem_cons_self _ _), h1⟩
      · intro a ha
        simp only [List.map_cons, List.mem_cons] at ha
        rcases ha with rfl | ha
        · exact hm
        · exact fun hs => (h2 _ ha) (List.mem_cons_of_mem _ hs)

theorem key_mem_dedupKeysAux :
    ∀ (l : List Row) (seen : List (Date × String)) (a : Date × String),
      a ∈ l.map key → a ∉ seen → a ∈ (dedupKeysAux seen l).map key := by
  intro l
  induction l with
  | nil => intro seen a h _; simp at h
  | cons r rest ih =>
    intro seen a h hns
    simp only [List.map_cons, List.mem_cons] at h
    simp only [dedupKeysAux]
    by_cases hm : key r ∈ seen
    · rw [if_pos hm]
      rcases h with rfl | h
      · exact absurd hm hns
      · exact ih seen a h hns
    · rw [if_neg hm]
      simp only [List.map_cons, List.mem_cons]
      by_cases hak : a = key r
      · exact Or.inl hak
      · rcases h with rfl | h
        · exact absurd rfl hak
        · refine Or.inr (ih _ a h ?_)
          intro hc
          rcases List.mem_cons.mp hc with hc | hc
          · exact hak hc
          · exact hns hc

theorem dedupKeysAux_eq_nil :
    ∀ (l : List Row) (seen : List (Date × String)),
      (∀ y ∈ l, key y ∈ seen) → dedupKeysAux seen l = [] := by
  intro l
  induction l with
  | nil => intro seen _; rfl
  | cons r rest ih =>
    intro seen h
    simp only [dedupKeysAux]
    rw [if_pos (h r (List.mem_cons_self _ _))]
    exact ih seen (fun y hy => h y (List.mem_cons_of_mem _ hy))

theorem dedupKeysAux_append :
    ∀ (xs : List Row) (seen : List (Date × String)) (ys : List Row),
      (xs.map key).Nodup → (∀ x ∈ xs, key x ∉ seen) →
      (∀ y ∈ ys, key y ∈ seen ∨ key y ∈ xs.map key) →
      dedupKeysAux seen (xs ++ ys) = xs := by
  intro xs
  induction xs with
  | nil =>
    intro seen ys _ _ hys
    simp only [List.nil_append]
    refine dedupKeysAux_eq_nil ys seen (fun y hy => ?_)
    rcases hys y hy with h | h
    · exact h
    · simp at h
  | cons x xs ih =>
    intro seen ys hnd hseen hys
    simp only [List.cons_append, dedupKeysAux]
    rw [if_neg (hseen x (List.mem_cons_self _ _))]
    congr 1
    simp only [List.map_cons, List.nodup_cons] at hnd
    refine ih (key x :: seen) ys hnd.2 ?_ ?_
    · intro x2 hx2 hc
      rcases List.mem_cons.mp hc with hc | hc
      · exact hnd.1 (hc ▸ List.mem_map_of_mem key hx2)
      · exact hseen x2 (List.mem_cons_of_mem _ hx2) hc
    · intro y hy
      rcases hys y hy with h | h
      · exact Or.inl (List.mem_cons_of_mem _ h)
      · simp only [List.map_cons, List.mem_cons] at h
        rcases h with h | h
        · exact Or.inl (h ▸ List.mem_cons_self _ _)
        · exact Or.inr h

theorem mem_dedupKeysAux_left :
    ∀ (xs : List Row) (seen : List (Date × String)) (ys : List Row) (o : Row),
      (xs.map key).Nodup → (∀ x ∈ xs, key x ∉ seen) → o ∈ xs →
      o ∈ dedupKeysAux seen (xs ++ ys) := by
  intro xs
  induction xs with
  | nil => intro _ _ _ _ _ h; simp at h
  | cons x xs ih =>
    intro seen ys o hnd hseen ho
    simp only [List.cons_append, dedupKeysAux]
    rw [if_neg (hseen x (List.mem_cons_self _ _))]
    rcases List.mem_cons.mp ho with rfl | ho
    · exact List.mem_cons_self _ _
    · refine List.mem_cons_of_mem _ ?_
      simp only [List.map_cons, List.nodup_cons] at hnd
      refine ih (key x :: seen) ys o hnd.2 ?_ ho
      intro x2 hx2 hc
      rcases List.mem_cons.mp hc with hc | hc
      · exact hnd.1 (hc ▸ List.mem_map_of_mem key hx2)
      · exact hseen x2 (List.mem_cons_of_mem _ hx2) hc

theorem dedupKeys_key_nodup (l : List Row) : ((dedupKeys l).map key).Nodup :=
  (dedupKeysAux_nodup l []).1

theorem key_mem_dedupKeys (l : List Row) (a : Date × String) (h : a ∈ l.map key) :
    a ∈ (dedupKeys l).map key :=
  key_mem_dedupKeysAux l [] a h (by simp)

theorem dedupKeys_append (xs ys : List Row) (hnd : (xs.map key).Nodup)
    (hys : ∀ y ∈ ys, key y ∈ xs.map key) : dedupKeys (xs ++ ys) = xs :=
  dedupKeysAux_append xs [] ys hnd (by simp) (fun y hy => Or.inr (hys y hy))

theorem mem_dedupKeys_left (xs ys : List Row) (o : Row) (hnd : (xs.map key).Nodup)
    (ho : o ∈ xs) : o ∈ dedupKeys (xs ++ ys) :=
  mem_dedupKeysAux_left xs [] ys o hnd (by simp) ho

/-! ### Sorting lemmas -/

theorem sortRows_perm (l : List Row) : List.Perm (sortRows l) l :=
  List.perm_insertionSort rowLE l

theorem sortRows_sorted (l : List Row) : (sortRows l).Sorted rowLE :=
  List.sorted_insertionSort rowLE l

theorem sortRows_key_nodup (l : List Row) (h : (l.map key).Nodup) :
    ((sortRows l).map key).Nodup :=
  ((sortRows_perm l).map key).nodup_iff.mpr h

theorem sortRows_eq_of_sorted (l : List Row) (h : l.Sorted rowLE) : sortRows l = l :=
  h.insertionSort_eq

theorem mem_sortRows (l : List Row) (x : Row) : x ∈ sortRows l ↔ x ∈ l :=
  (sortRows_perm l).mem_iff

/-! ### Merge-step lemmas -/

theorem mergeStep_some (old fetched : List Row) :
    mergeStep (some old) fetched = .ok (sortRows (dedupKeys (old ++ fetched))) := rfl

theorem mergeStep_ok_sorted (prior : Option (List Row)) (fetched out : List Row)
    (h : mergeStep prior fetched = .ok out) : out.Sorted rowLE := by
  cases prior with
  | some old =>
    have hout : out = sortRows (dedupKeys (old ++ fetched)) := by
      simpa [mergeStep] using h.symm
    rw [hout]
    exact sortRows_sorted _
  | none =>
    cases fetched with
    | nil => simp [mergeStep] at h
    | cons a as =>
      have hout : out = sortRows (a :: as) := by simpa [mergeStep] using h.symm
      rw [hout]
      exact sortRows_sorted _

theorem mergeStep_ok_props (prior : Option (List Row)) (fetched out : List Row)
    (h : mergeStep prior fetched = .ok out)
    (hside : prior ≠ none ∨ (fetched.map key).Nodup) :
    (out.map key).Nodup ∧ (∀ y ∈ fetched, key y ∈ out.map key) ∧ out.Sorted rowLE := by
  cases prior with
  | some old =>
    have hout : out = sortRows (dedupKeys (old ++ fetched)) := by
      simpa [mergeStep] using h.symm
    subst hout
    refine ⟨sortRows_key_nodup _ (dedupKeys_key_nodup _), ?_, sortRows_sorted _⟩
    intro y hy
    have h1 : key y ∈ (old ++ fetched).map key := by
      rw [List.map_append, List.mem_append]
      exact Or.inr (List.mem_map_of_mem key hy)
    exact ((sortRows_perm _).map key).mem_iff.mpr (key_mem_dedupKeys _ _ h1)
  | none =>
    rcases hside with hc | hnd
    · exact absurd rfl hc
    cases fetched with
    | nil => simp [mergeStep] at h
    | cons a as =>
      have hout : out = sortRows (a :: as) := by simpa [mergeStep] using h.symm
      subst hout
      refine ⟨sortRows_key_nodup _ hnd, ?_, sortRows_sorted _⟩
      intro y hy
      exact ((sortRows_perm _).map key).mem_iff.mpr (List.mem_map_of_mem key hy)

/-! ### Concrete rows and API environments used in the claim instances -/

/-- The persisted row `(2024-03-01, unemployment_rate, 3.8)`. -/
def obsMar38 : Row := ⟨⟨2024, 3⟩, "unemployment_rate", mkRat 19 5⟩

/-- The freshly fetched row `(2024-03-01, unemployment_rate, 3.9)`. -/
def obsMar39 : Row := ⟨⟨2024, 3⟩, "unemployment_rate", mkRat 39 10⟩

/-- An API where every series responds with a one-item January payload. -/
def apiAllGood : String → ApiResponse :=
  fun _ => .payload [⟨"M01", "2024", "3.8"⟩]

/-! ### Claims -/

/-- **C1** (corrected by this theorem's counterpart `C1_counterexample`):
the claim asserts last-write-wins, but `pd.concat([old, df])` puts the
old rows first and `drop_duplicates` keeps the *first* occurrence, so
the *old* row wins.  At the claim's own instance — persisted
`(2024-03-01, unemployment_rate, 3.8)` merged with fetched
`(2024-03-01, unemployment_rate, 3.9)` — the merged dataset contains
only `3.8`, not `3.9`. -/
theorem C1_counterexample :
    mergeStep (some [obsMar38]) [obsMar39] = .ok [obsMar38] ∧
    obsMar38.value = mkRat 19 5 ∧ obsMar39.value = mkRat 39 10 ∧
    obsMar39 ∉ [obsMar38] := by decide

/-- **C1 (amended)**: when an old (persisted) row and a new (fetched)
row share the same identity key, the merged dataset keeps the old row's
value, not the new one (first-write-wins): provided the persisted
dataset has no duplicate keys, every persisted row survives the merge
and any differing fetched row with the same identity key is dropped. -/
theorem C1_first_write_wins (old fetched out : List Row)
    (hnd : (old.map key).Nodup)
    (h : mergeStep (some old) fetched = .ok out)
    (o : Row) (ho : o ∈ old) :
    o ∈ out ∧ ∀ n ∈ fetched, key n = key o → n ≠ o → n ∉ out := by
  have hout : out = sortRows (dedupKeys (old ++ fetched)) := by
    simpa [mergeStep] using h.symm
  subst hout
  constructor
  · exact (mem_sortRows _ _).mpr (mem_dedupKeys_left old fetched o hnd ho)
  · intro n _ hkey hne hmem
    have hnodup := sortRows_key_nodup _ (dedupKeys_key_nodup (old ++ fetched))
    have homem : o ∈ sortRows (dedupKeys (old ++ fetched)) :=
      (mem_sortRows _ _).mpr (mem_dedupKeys_left old fetched o hnd ho)
    exact hne (List.inj_on_of_nodup_map hnodup hmem homem hkey)

theorem C1_first_write_wins_witness :
    obsMar38 ∈ [obsMar38] ∧ obsMar39 ∉ [obsMar38] := by
  have h := C1_first_write_wins [obsMar38] [obsMar39] [obsMar38]
    (by decide) (by decide) obsMar38 (by decide)
  exact ⟨h.1, h.2 obsMar39 (by decide) (by decide) (by decide)⟩

/-- **C3** (corrected by this counterexample): the claim quantifies over
every prior dataset *including the absent one*, but when `DATA_PATH`
does not exist `update_dataset` never calls `drop_duplicates`: the
fetched batch is written as-is, so a batch with a repeated identity key
is persisted with both rows. -/
theorem C3_counterexample :
    mergeStep none [obsMar38, obsMar39] = .ok [obsMar38, obsMar39] ∧
    key obsMar38 = key obsMar39 ∧ obsMar38 ≠ obsMar39 := by decide

/-- **C3 (amended)**: whenever a prior persisted file exists (it may be
empty), the dataset written by the merge has at most one row per
identity key; with no prior file the fetched batch is written without
deduplication. -/
theorem C3_dedup_with_prior (old fetched out : List Row)
    (h : mergeStep (some old) fetched = .ok out) :
    (out.map key).Nodup := by
  have hout : out = sortRows (dedupKeys (old ++ fetched)) := by
    simpa [mergeStep] using h.symm
  subst hout
  exact sortRows_key_nodup _ (dedupKeys_key_nodup _)

theorem C3_dedup_with_prior_witness :
    (([obsMar38] : List Row).map key).Nodup :=
  C3_dedup_with_prior [] [obsMar38, obsMar39] [obsMar38] (by decide)

/-- **C4** (confirmed): every dataset written by `update_dataset` is
sorted ascending by date and then by series key — `rowLE` is exactly the
lexicographic order on `(date, series)` with date primary, and
`List.Sorted` gives the relation on every (in particular every
adjacent) pair of rows. -/
theorem C4_sorted_output (api : String → ApiResponse) (prior : Option (List Row))
    (out : List Row) (h : update_dataset api prior = .ok out) :
    out.Sorted rowLE := by
  unfold update_dataset at h
  cases hc : collectRows api SERIES with
  | error e => rw [hc] at h; simp at h
  | ok rows => rw [hc] at h; exact mergeStep_ok_sorted prior rows out h

theorem C4_sorted_output_witness :
    List.Sorted rowLE
      [⟨⟨2024, 1⟩, "avg_hourly_earnings", mkRat 19 5⟩,
       ⟨⟨2024, 1⟩, "avg_weekly_hours", mkRat 19 5⟩,
       ⟨⟨2024, 1⟩, "labor_force_participation", mkRat 19 5⟩,
       ⟨⟨2024, 1⟩, "nonfarm_employment", mkRat 19 5⟩,
       ⟨⟨2024, 1⟩, "unemployment_rate", mkRat 19 5⟩] :=
  C4_sorted_output apiAllGood none _ (by decide)

/-- **C7** (corrected by this counterexample): with no prior file the
first run writes the fetched batch without deduplication, so a batch
with a repeated identity key yields two rows; the second run, now with a
prior file, deduplicates and the row count shrinks from 2 to 1 — the two
runs do not produce identical datasets. -/
theorem C7_counterexample :
    mergeStep none [obsMar38, obsMar39] = .ok [obsMar38, obsMar39] ∧
    mergeStep (some [obsMar38, obsMar39]) [obsMar38, obsMar39] = .ok [obsMar38] ∧
    ([obsMar38, obsMar39] : List Row).length ≠ ([obsMar38] : List Row).length := by
  decide

/-- **C7 (amended)**: running the merge twice with identical fetched
input produces an identical persisted dataset, provided the first run
started from an existing persisted file or the fetched batch has no
duplicate identity keys. -/
theorem C7_idempotent (prior : Option (List Row)) (fetched d1 : List Row)
    (h : mergeStep prior fetched = .ok d1)
    (hside : prior ≠ none ∨ (fetched.map key).Nodup) :
    mergeStep (some d1) fetched = .ok d1 := by
  obtain ⟨hnd, hkeys, hsort⟩ := mergeStep_ok_props prior fetched d1 h hside
  rw [mergeStep_some, dedupKeys_append d1 fetched hnd hkeys,
    sortRows_eq_of_sorted _ hsort]

theorem C7_idempotent_witness :
    mergeStep (some [⟨⟨2024, 1⟩, "avg_weekly_hours", 34⟩,
        ⟨⟨2024, 2⟩, "avg_weekly_hours", 35⟩])
      [⟨⟨2024, 2⟩, "avg_weekly_hours", 35⟩]
      = .ok [⟨⟨2024, 1⟩, "avg_weekly_hours", 34⟩,
             ⟨⟨2024, 2⟩, "avg_weekly_hours", 35⟩] :=
  C7_idempotent (some [⟨⟨2024, 1⟩, "avg_weekly_hours", 34⟩])
    [⟨⟨2024, 2⟩, "avg_weekly_hours", 35⟩] _ (by decide) (Or.inl (by decide))

/-- **C8** (corrected by this counterexample): if every series fails
(each contributing zero rows without raising) and no prior file exists,
the accumulated list is empty, `pd.DataFrame([])` has no columns, and
`sort_values(["date", "series"])` raises `KeyError` — the run crashes
and writes nothing, instead of writing best-effort. -/
theorem C8_counterexample :
    update_dataset (fun _ => .badStructure) none = .error () ∧
    fetch_series .badStructure = .ok [] := by
  exact ⟨by decide, rfl⟩

/-- **C8 (amended)**: `update_dataset` writes whatever was successfully
fetched and reports its row count, provided no series fetch raised
(transport/JSON failures propagate) and either a prior file exists or at
least one row was fetched (otherwise the empty, column-less frame makes
the sort raise `KeyError`). -/
theorem C8_best_effort (api : String → ApiResponse) (prior : Option (List Row))
    (rows : List Row) (h1 : collectRows api SERIES = .ok rows)
    (h2 : prior ≠ none ∨ rows ≠ []) :
    ∃ out, update_dataset api prior = .ok out := by
  unfold update_dataset
  rw [h1]
  cases prior with
  | some old => exact ⟨_, rfl⟩
  | none =>
    cases rows with
    | nil =>
      rcases h2 with h | h
      · exact absurd rfl h
      · exact absurd rfl h
    | cons a as => exact ⟨_, rfl⟩

/-- An API that fails at transport level (`requests.post` raises) for
the first registered series and answers the others normally. -/
def apiNetFail : String → ApiResponse := fun sid =>
  if sid == "CES0000000001" then .netError
  else .payload [⟨"M01", "2024", "3.9"⟩]

/-- An API whose decoded JSON lacks the expected structure for the first
registered series and answers the others normally. -/
def apiStructFail : String → ApiResponse := fun sid =>
  if sid == "CES0000000001" then .badStructure
  else .payload [⟨"M01", "2024", "3.9"⟩]

/-- **C2** (corrected by this counterexample): `requests.post` and
`response.json()` sit *before* the `try` block of `fetch_series`, so a
network error while fetching series A propagates and aborts the whole
run — series B's rows are fetched successfully in isolation, yet
nothing is written. -/
theorem C2_counterexample :
    update_dataset apiNetFail none = .error () ∧
    fetch_series (apiNetFail "LNS14000000") = .ok [(⟨2024, 1⟩, mkRat 39 10)] := by
  exact ⟨by decide, by decide⟩

/-- **C2 (amended)**: only failures *inside* the response parsing
(missing expected structure in the decoded payload) are caught at the
single-series granularity and yield an empty observation sequence
without aborting the other series; a transport error or a non-JSON
response raises before the `try` block and aborts the run.  Concretely:
with series A failing structurally and the four other series succeeding,
the run completes and the final dataset contains exactly the other
series' rows and none for A. -/
theorem C2_structure_failure_isolated :
    fetch_series .badStructure = .ok [] ∧
    fetch_series .netError = .error () ∧
    fetch_series .badJson = .error () ∧
    update_dataset apiStructFail none =
      .ok [⟨⟨2024, 1⟩, "avg_hourly_earnings", mkRat 39 10⟩,
           ⟨⟨2024, 1⟩, "avg_weekly_hours", mkRat 39 10⟩,
           ⟨⟨2024, 1⟩, "labor_force_participation", mkRat 39 10⟩,
           ⟨⟨2024, 1⟩, "unemployment_rate", mkRat 39 10⟩] ∧
    ([⟨⟨2024, 1⟩, "avg_hourly_earnings", mkRat 39 10⟩,
      ⟨⟨2024, 1⟩, "avg_weekly_hours", mkRat 39 10⟩,
      ⟨⟨2024, 1⟩, "labor_force_participation", mkRat 39 10⟩,
      ⟨⟨2024, 1⟩, "unemployment_rate", mkRat 39 10⟩] : List Row).all
      (fun r => !(r.series == "nonfarm_employment")) = true := by
  exact ⟨rfl, rfl, rfl, by decide, by decide⟩

/-- A payload carrying all twelve calendar months plus the
annual-average pseudo-period `M13`. -/
def C5payload : List RawItem :=
  [⟨"M13", "2024", "3.8"⟩, ⟨"M12", "2024", "3.8"⟩, ⟨"M11", "2024", "3.8"⟩,
   ⟨"M10", "2024", "3.8"⟩, ⟨"M09", "2024", "3.8"⟩, ⟨"M08", "2024", "3.8"⟩,
   ⟨"M07", "2024", "3.8"⟩, ⟨"M06", "2024", "3.8"⟩, ⟨"M05", "2024", "3.8"⟩,
   ⟨"M04", "2024", "3.8"⟩, ⟨"M03", "2024", "3.8"⟩, ⟨"M02", "2024", "3.8"⟩,
   ⟨"M01", "2024", "3.8"⟩]

/-- The twelve observations `fetch_series` extracts from `C5payload`. -/
def C5expected : List Obs :=
  [(⟨2024, 12⟩, mkRat 19 5), (⟨2024, 11⟩, mkRat 19 5), (⟨2024, 10⟩, mkRat 19 5),
   (⟨2024, 9⟩, mkRat 19 5), (⟨2024, 8⟩, mkRat 19 5), (⟨2024, 7⟩, mkRat 19 5),
   (⟨2024, 6⟩, mkRat 19 5), (⟨2024, 5⟩, mkRat 19 5), (⟨2024, 4⟩, mkRat 19 5),
   (⟨2024, 3⟩, mkRat 19 5), (⟨2024, 2⟩, mkRat 19 5), (⟨2024, 1⟩, mkRat 19 5)]

/-- **C5** (confirmed): every observation `fetch_series` keeps has a
genuine calendar month (1–12) as its date's month — non-monthly periods
and the annual-average code never contribute a row — and the payload
with periods `M01..M12` plus `M13` yields exactly the twelve monthly
observations, excluding `M13`. -/
theorem C5_monthly_filter :
    (∀ (items : List RawItem) (d : Date) (v : Rat),
        (d, v) ∈ processItems items → 1 ≤ d.month ∧ d.month ≤ 12) ∧
    fetch_series (.payload C5payload) = .ok C5expected ∧
    C5expected.length = 12 := by
  refine ⟨?_, by decide, by decide⟩
  intro items
  induction items with
  | nil => intro d v h; simp [processItems] at h
  | cons item rest ih =>
    intro d v h
    simp only [processItems] at h
    split at h
    · split at h
      · exact ih d v h
      · split at h
        · rename_i y m hy2 hm2
          split at h
          · rename_i hvalid
            split at h
            · rcases List.mem_cons.mp h with hdv | hdv
              · have hd : d = ⟨Int.toNat y, Int.toNat m⟩ := congrArg Prod.fst hdv
                rw [hd]
                dsimp only
                omega
              · exact ih d v hdv
            · exact ih d v h
          · simp at h
        · simp at h
    · exact ih d v h

theorem C5_monthly_filter_witness :
    1 ≤ (⟨2024, 12⟩ : Date).month ∧ (⟨2024, 12⟩ : Date).month ≤ 12 :=
  C5_monthly_filter.1 C5payload ⟨2024, 12⟩ (mkRat 19 5) (by decide)

/-- If two tails produce the same observations, prepending the same item
produces the same observations: the per-item processing of
`fetch_series` only looks at the item itself. -/
theorem processItems_congr_tail (p : RawItem) (r1 r2 : List RawItem)
    (h : processItems r1 = processItems r2) :
    processItems (p :: r1) = processItems (p :: r2) := by
  simp only [processItems]
  split
  · split
    · exact h
    · split
      · split
        · split
          · rw [h]
          · exact h
        · rfl
      · rfl
  · exact h

/-- A raw item with a valid monthly period and year whose value does not
parse as a number. -/
def C6bad : RawItem := ⟨"M05", "2024", "n/a"⟩

/-- A well-formed raw item. -/
def C6good : RawItem := ⟨"M06", "2024", "4.0"⟩

/-- **C6** (confirmed): an observation whose value fails `float` —
while its period is a valid non-`M13` month and its year parses — is
skipped by the inner `except ValueError: continue` alone: deleting it
from the batch changes nothing, so the failure does not propagate and
all remaining observations are still returned. -/
theorem C6_malformed_value_skipped (pre : List RawItem) (item : RawItem)
    (rest : List RawItem) (ptail : List Char) (y m : Int)
    (hM : item.period.data = 'M' :: ptail) (h13 : ptail ≠ ['1', '3'])
    (hy : parsePyInt item.year = some y) (hm : parsePyIntChars ptail = some m)
    (hd : 1 ≤ y ∧ y ≤ 9999 ∧ 1 ≤ m ∧ m ≤ 12)
    (hv : parseValue item.value = none) :
    processItems (pre ++ item :: rest) = processItems (pre ++ rest) := by
  induction pre with
  | nil =>
    simp only [List.nil_append, processItems, hM, hy, hm, hv]
    rw [if_neg h13, if_pos hd]
  | cons p pre ih =>
    simp only [List.cons_append]
    exact processItems_congr_tail p _ _ ih

theorem C6_malformed_value_skipped_witness :
    processItems [C6good, C6bad, C6good] = processItems [C6good, C6good] :=
  C6_malformed_value_skipped [C6good] C6bad [C6good] ['0', '5'] 2024 5
    (by decide) (by decide) (by decide) (by decide) (by decide) (by decide)

theorem C8_best_effort_witness :
    ∃ out, update_dataset apiAllGood none = .ok out :=
  C8_best_effort apiAllGood none
    [⟨⟨2024, 1⟩, "nonfarm_employment", mkRat 19 5⟩,
     ⟨⟨2024, 1⟩, "unemployment_rate", mkRat 19 5⟩,
     ⟨⟨2024, 1⟩, "labor_force_participation", mkRat 19 5⟩,
     ⟨⟨2024, 1⟩, "avg_hourly_earnings", mkRat 19 5⟩,
     ⟨⟨2024, 1⟩, "avg_weekly_hours", mkRat 19 5⟩]
    (by decide) (Or.inr (by decide))

/-- **C9** (corrected by this counterexample): `load_data` calls
`pd.read_csv(DATA_PATH)` with no existence check and no exception
handling, so a missing store file raises `FileNotFoundError` — the
data-loading path crashes instead of tolerating the absence. -/
theorem C9_counterexample : load_data none = .error () := rfl

/-- **C9 (amended)**: the data-loading path tolerates a present but
row-less store (it returns an empty frame without crashing) and treats
unknown series keys by falling back to the raw key as the display label
(`.map(SERIES_LABELS).fillna(df["series"])`); a *missing* store file,
however, makes `pd.read_csv` raise. -/
theorem C9_load_data :
    load_data (some []) = .ok [] ∧
    (∀ rows out, load_data (some rows) = .ok out →
      ∀ x ∈ out, x.series_name = (SERIES_LABELS.lookup x.series).getD x.series) := by
  refine ⟨rfl, ?_⟩
  intro rows out h x hx
  have hout : out = (List.insertionSort rowDateLE rows).map
      (fun r => ⟨r.date, r.series, r.value,
        (SERIES_LABELS.lookup r.series).getD r.series⟩) := by
    simpa [load_data] using h.symm
  subst hout
  rcases List.mem_map.mp hx with ⟨r, _, rfl⟩
  rfl

/-- A persisted row whose series key is not in the registry. -/
def C9row : Row := ⟨⟨2024, 1⟩, "mystery_series", mkRat 1 2⟩

theorem C9_load_data_witness :
    (⟨⟨2024, 1⟩, "mystery_series", mkRat 1 2, "mystery_series"⟩ : LRow).series_name
      = (SERIES_LABELS.lookup "mystery_series").getD "mystery_series" :=
  C9_load_data.2 [C9row]
    [⟨⟨2024, 1⟩, "mystery_series", mkRat 1 2, "mystery_series"⟩]
    (by decide) ⟨⟨2024, 1⟩, "mystery_series", mkRat 1 2, "mystery_series"⟩ (by decide)

/-! ### Wide-export lemmas (C10) -/

theorem mem_wideColumns (df : List Row) (c : String) :
    c ∈ wideColumns df ↔ c = "date" ∨ c ∈ df.map (fun r => r.series) := by
  simp [wideColumns, pivotColumns, List.mem_dedup]

theorem renameCol_inj_on_keys :
    ∀ c ∈ KEY_ORDER, ∀ k ∈ KEY_ORDER, renameCol c = renameCol k → c = k := by decide

theorem renameCol_date_ne : ∀ k ∈ KEY_ORDER, renameCol "date" ≠ renameCol k := by
  decide

theorem renameCol_mem_WANTED : ∀ k ∈ KEY_ORDER, renameCol k ∈ WANTED := by decide

/-- **C10** (confirmed): on datasets whose series keys come from the
registry, the wide-form export is well-defined exactly under the two
preconditions the claim states — `df.pivot` raises on a duplicated
`(date, series)` identity key, the column selection raises when one of
the five registry series has no row, and when both preconditions hold
the export succeeds, producing one row per date with exactly the five
hardcoded series columns plus the date. -/
theorem C10_wide_preconditions :
    (∀ df : List Row, ¬ (df.map key).Nodup → wide df = .error ()) ∧
    (∀ df : List Row, (∀ r ∈ df, r.series ∈ KEY_ORDER) →
      (∃ k ∈ KEY_ORDER, k ∉ df.map (fun r => r.series)) → wide df = .error ()) ∧
    (∀ df : List Row, (df.map key).Nodup →
      (∀ k ∈ KEY_ORDER, k ∈ df.map (fun r => r.series)) →
      wide df = .ok ((pivotDates df).map
        (fun d => (d, KEY_ORDER.map (fun k => lookupVal df d k))))) := by
  refine ⟨?_, ?_, ?_⟩
  · intro df hnd
    unfold wide
    rw [if_neg hnd]
  · intro df hreg hmiss
    rcases hmiss with ⟨k, hk, hkabs⟩
    by_cases hnd : (df.map key).Nodup
    · have hall :
          ¬ (WANTED.all (fun c => decide (c ∈ (wideColumns df).map renameCol)) = true) := by
        intro hall
        rw [List.all_eq_true] at hall
        have hin := hall (renameCol k) (renameCol_mem_WANTED k hk)
        rw [decide_eq_true_eq] at hin
        rcases List.mem_map.mp hin with ⟨c, hcw, hL⟩
        rcases (mem_wideColumns df c).mp hcw with rfl | hcs
        · exact renameCol_date_ne k hk hL
        · have hck : c ∈ KEY_ORDER := by
            rcases List.mem_map.mp hcs with ⟨r, hr, rfl⟩
            exact hreg r hr
          exact hkabs ((renameCol_inj_on_keys c hck k hk hL) ▸ hcs)
      unfold wide
      rw [if_pos hnd, if_neg hall]
    · unfold wide
      rw [if_neg hnd]
  · intro df hnd hkeys
    have hall :
        WANTED.all (fun c => decide (c ∈ (wideColumns df).map renameCol)) = true := by
      rw [List.all_eq_true]
      intro c hcw
      rw [decide_eq_true_eq]
      fin_cases hcw
      · have h1 : renameCol "date" = "Date" := by decide
        exact h1 ▸
          List.mem_map_of_mem renameCol ((mem_wideColumns df "date").mpr (Or.inl rfl))
      · have h1 : renameCol "avg_hourly_earnings" = "Average Hourly Earnings ($)" := by
          decide
        exact h1 ▸ List.mem_map_of_mem renameCol ((mem_wideColumns df _).mpr
          (Or.inr (hkeys "avg_hourly_earnings" (by decide))))
      · have h1 : renameCol "avg_weekly_hours" = "Average Weekly Hours" := by decide
        exact h1 ▸ List.mem_map_of_mem renameCol ((mem_wideColumns df _).mpr
          (Or.inr (hkeys "avg_weekly_hours" (by decide))))
      · have h1 : renameCol "labor_force_participation"
            = "Labor Force Participation Rate (%)" := by decide
        exact h1 ▸ List.mem_map_of_mem renameCol ((mem_wideColumns df _).mpr
          (Or.inr (hkeys "labor_force_participation" (by decide))))
      · have h1 : renameCol "nonfarm_employment" = "Nonfarm Employment (Thousands)" := by
          decide
        exact h1 ▸ List.mem_map_of_mem renameCol ((mem_wideColumns df _).mpr
          (Or.inr (hkeys "nonfarm_employment" (by decide))))
      · have h1 : renameCol "unemployment_rate" = "Unemployment Rate (%)" := by decide
        exact h1 ▸ List.mem_map_of_mem renameCol ((mem_wideColumns df _).mpr
          (Or.inr (hkeys "unemployment_rate" (by decide))))
    unfold wide
    rw [if_pos hnd, if_pos hall]

/-- A loaded dataset with a duplicated identity key. -/
def dfDup : List Row := [obsMar38, obsMar39]

/-- A loaded dataset in which four registry series have no row. -/
def dfMissing : List Row := [⟨⟨2024, 1⟩, "unemployment_rate", 4⟩]

/-- A loaded dataset with one row for each registry series. -/
def dfGood : List Row :=
  [⟨⟨2024, 1⟩, "nonfarm_employment", 158000⟩,
   ⟨⟨2024, 1⟩, "unemployment_rate", 4⟩,
   ⟨⟨2024, 1⟩, "labor_force_participation", mkRat 627 10⟩,
   ⟨⟨2024, 1⟩, "avg_hourly_earnings", mkRat 345 10⟩,
   ⟨⟨2024, 1⟩, "avg_weekly_hours", mkRat 344 10⟩]

theorem C10_wide_preconditions_witness :
    wide dfDup = .error () ∧ wide dfMissing = .error () ∧
    wide dfGood = .ok ((pivotDates dfGood).map
      (fun d => (d, KEY_ORDER.map (fun k => lookupVal dfGood d k)))) :=
  ⟨C10_wide_preconditions.1 dfDup (by decide),
   C10_wide_preconditions.2.1 dfMissing (by decide)
     ⟨"avg_hourly_earnings", by decide, by decide⟩,
   C10_wide_preconditions.2.2 dfGood (by decide) (by decide)⟩

end BLS
